import Mathlib

/-!
Verification of the teleoperation-with-inference node `src/teleop_inference.py`
(class `TeleopInference`).

The node's orchestration code (the 100 Hz publish loop, the joint-angle
callback, parameter loading) is embedded directly from the source.  Components
of this repository that the node calls but that are not under `src/`
(`controllers/pid_controller.py`, the correction detector driving
`learners/teleop_learner.py`) are modelled from the specification; each such
definition carries a doc comment saying so.

Numbers are embedded as exact rationals; `piQ` is the exact rational value of
the IEEE-754 double `math.pi` used by the source.
-/

namespace Teleop

/-- The exact rational value of the double-precision constant `math.pi`
(`np.pi`) used by the source for unit conversions. -/
def piQ : ℚ := 884279719003555 / 281474976710656

/-- Elementwise vector addition (numpy `+` on equal-length 1-d arrays). -/
def vadd (a b : List ℚ) : List ℚ := (a.zip b).map fun p => p.1 + p.2

/-- Elementwise vector subtraction (numpy `-` on equal-length 1-d arrays). -/
def vsub (a b : List ℚ) : List ℚ := (a.zip b).map fun p => p.1 - p.2

/-- Scalar multiplication of a vector (numpy scalar `*` array). -/
def smulV (c : ℚ) (v : List ℚ) : List ℚ := v.map (c * ·)

/-- Scalar multiplication of a matrix, row by row (numpy scalar `*` 2-d array);
used for the `(180/np.pi)*self.cmd` published each loop cycle. -/
def smulMat (c : ℚ) (m : List (List ℚ)) : List (List ℚ) := m.map (smulV c)

/-- `np.eye n`: the n-by-n identity matrix as nested lists. -/
def eyeN (n : ℕ) : List (List ℚ) :=
  (List.range n).map fun i => (List.range n).map fun j => if i = j then (1 : ℚ) else 0

/-- The n-by-n all-zero matrix. -/
def zeroMat (n : ℕ) : List (List ℚ) := List.replicate n (List.replicate n (0 : ℚ))

/-- Squared Euclidean distance between two configuration vectors. -/
def sqDist (a b : List ℚ) : ℚ := ((a.zip b).map fun p => (p.1 - p.2) ^ 2).sum

/-- Proximity test against the controller threshold `epsilon`. -/
def closeTo (eps : ℚ) (a b : List ℚ) : Bool := decide (sqDist a b ≤ eps ^ 2)

/-- Clamp one joint command to magnitude at most `m`. -/
def clampQ (m x : ℚ) : ℚ := min m (max (-m) x)

/-- A trajectory: waypoints tagged with a time offset, as produced by the
planner and consumed by the controller. -/
def Traj := List (ℚ × List ℚ)

/-- The first (start) waypoint of a trajectory. -/
def startWaypoint (traj : Traj) : List ℚ :=
  match traj with
  | [] => []
  | (_, w) :: _ => w

/-- Helper for `endWaypoint`: last waypoint of the remaining list. -/
def endWaypointAux (cur : List ℚ) : List (ℚ × List ℚ) → List ℚ
  | [] => cur
  | (_, w) :: rest => endWaypointAux w rest

/-- The last (goal) waypoint of a trajectory. -/
def endWaypoint (traj : Traj) : List ℚ :=
  match traj with
  | [] => []
  | (_, w) :: rest => endWaypointAux w rest

/-- Dimensionality of the trajectory's waypoints. -/
def trajDim (traj : Traj) : ℕ := (startWaypoint traj).length

/-- Helper for `refPos`. -/
def refPosAux (t : ℚ) (cur : List ℚ) : List (ℚ × List ℚ) → List ℚ
  | [] => cur
  | (ti, wi) :: rest => if ti ≤ t then refPosAux t wi rest else cur

/-- Step-function reference position: the waypoint with the largest time
offset not exceeding the elapsed time `t`. -/
def refPos (traj : Traj) (t : ℚ) : List ℚ :=
  match traj with
  | [] => []
  | (_, w0) :: rest => refPosAux t w0 rest

/-- Modelled from the spec: the state of `PIDController`
(`controllers/pid_controller.py`, not under `src/`).  Gains are the scalars
`p_gain`, `i_gain`, `d_gain` (the source multiplies them by `np.eye(7)`),
`epsilon` is the proximity threshold, `max_cmd` the per-joint maximum command
magnitude, and `path_start_T` / `path_end_T` are the nullable timestamps set
the first time the tracked position enters within `epsilon` of the
trajectory's start and end waypoints. -/
structure PIDController where
  P : ℚ
  I : ℚ
  D : ℚ
  epsilon : ℚ
  max_cmd : ℚ
  traj : List (ℚ × List ℚ)
  path_start_T : Option ℚ
  path_end_T : Option ℚ
  i_error : List ℚ
  last_error : List ℚ
deriving DecidableEq, Repr

/-- Modelled from the spec: `path_start_T` is set (once) when the position
first comes within `epsilon` of the start waypoint. -/
def updateStartT (c : PIDController) (t : ℚ) (pos : List ℚ) : PIDController :=
  if c.path_start_T.isNone && closeTo c.epsilon pos (startWaypoint c.traj)
  then { c with path_start_T := some t } else c

/-- Modelled from the spec: `path_end_T` is set (once, and only after tracking
has started) when the position first comes within `epsilon` of the end
waypoint. -/
def updateEndT (c : PIDController) (t : ℚ) (pos : List ℚ) : PIDController :=
  if c.path_end_T.isNone && c.path_start_T.isSome &&
      closeTo c.epsilon pos (endWaypoint c.traj)
  then { c with path_end_T := some t } else c

/-- Modelled from the spec: the controller's progress-timestamp update. -/
def updateTimes (c : PIDController) (t : ℚ) (pos : List ℚ) : PIDController :=
  updateEndT (updateStartT c t pos) t pos

/-- Modelled from the spec: `PIDController.get_command`
(`controllers/pid_controller.py` is not under `src/`).  Fails (raises
`DimensionMismatch`) when the sensed state's dimensionality disagrees with the
active trajectory's; otherwise updates the progress timestamps, computes a PID
velocity command against the trajectory reference at the elapsed time since
tracking began, and clamps each joint's command magnitude to `max_cmd`. -/
def get_command (c : PIDController) (t : ℚ) (pos : List ℚ) :
    Option (PIDController × List ℚ) :=
  if pos.length = trajDim c.traj then
    let c1 := updateTimes c t pos
    let elapsed := match c1.path_start_T with
      | some t0 => t - t0
      | none => 0
    let err := vsub (refPos c1.traj elapsed) pos
    let iacc := vadd c1.i_error err
    let raw := vadd (vadd (smulV c1.P err) (smulV c1.I iacc))
                    (smulV c1.D (vsub err c1.last_error))
    some ({ c1 with i_error := iacc, last_error := err },
          raw.map (clampQ c1.max_cmd))
  else none

/-- The mutable fields of the `TeleopInference` node touched by the loop and
the joint-angle callback: `curr_pos` (None until the first reading), the
command buffer `cmd` (initialised to `np.eye(7)` by `load_parameters`), the
progress flags, and the controller. -/
structure NodeState where
  curr_pos : Option (List ℚ)
  cmd : List (List ℚ)
  reached_start : Bool
  reached_goal : Bool
  ctrl : PIDController
deriving DecidableEq, Repr

/-- Node state right after `load_parameters` / `register_callbacks`:
no reading yet, `cmd = np.eye(7)`, both progress flags `False`. -/
def initState (c : PIDController) : NodeState :=
  { curr_pos := none
    cmd := eyeN 7
    reached_start := false
    reached_goal := false
    ctrl := c }

/-- `TeleopInference.joint_angles_callback`: converts the sensed angles to
radians, stores them in `curr_pos`, asks the controller for a new command,
and raises the progress flags when the controller's timestamps are set.
When `get_command` fails (`DimensionMismatch`), the exception is caught by the
ROS callback dispatcher: the statements after the raise do not run, so `cmd`
and the progress flags keep their previous values (`curr_pos` was already
assigned). -/
def joint_angles_callback (t : ℚ) (msg : List ℚ) (s : NodeState) : NodeState :=
  match get_command s.ctrl t (msg.map (· * (piQ / 180))) with
  | none => { s with curr_pos := some (msg.map (· * (piQ / 180))) }
  | some (c', cmdv) =>
      { s with
        curr_pos := some (msg.map (· * (piQ / 180)))
        ctrl := c'
        cmd := cmdv.map fun x => [x]
        reached_start := if c'.path_start_T.isSome then true else s.reached_start
        reached_goal := if c'.path_end_T.isSome then true else s.reached_goal }

/-- The message published each loop cycle: `(180/np.pi) * self.cmd`. -/
def publishedCmd (s : NodeState) : List (List ℚ) := smulMat (180 / piQ) s.cmd

/-- One iteration of the 100 Hz loop.  `msg` is the joint-angle reading (if
any) delivered by the subscriber since the previous iteration; `shutdown` is
`rospy.is_shutdown()` and `stdinReady` the `select` poll of standard input.
Returns `none` when the loop exits this cycle, otherwise the new node state
and the published velocity message. -/
def cycle (shutdown stdinReady : Bool) (msg : Option (List ℚ)) (t : ℚ)
    (s : NodeState) : Option (NodeState × List (List ℚ)) :=
  let s1 := match msg with
    | some m => joint_angles_callback t m s
    | none => s
  if shutdown then none
  else if stdinReady then none
  else some (s1, publishedCmd s1)

/-- A sequence of joint-angle callbacks applied in order of arrival. -/
def applyAll (msgs : List (ℚ × List ℚ)) (s : NodeState) : NodeState :=
  msgs.foldl (fun s p => joint_angles_callback p.1 p.2 s) s

/-- A detected human correction: the deviation vector and the joint state at
the time of detection (spec §4.2). -/
structure CorrectionEvent where
  deviation : List ℚ
  state : List ℚ
deriving DecidableEq, Repr

/-- The deviation magnitude exceeds the configured deadband
`INTERACTION_VELOCITY_EPSILON` (a per-joint vector in the configuration):
some joint's deviation magnitude is strictly above its deadband entry. -/
def deadbandExceeded (eps dev : List ℚ) : Prop :=
  ∃ i < min dev.length eps.length, eps.getD i 0 < |dev.getD i 0|

instance (eps dev : List ℚ) : Decidable (deadbandExceeded eps dev) := by
  unfold deadbandExceeded
  infer_instance

/-- Modelled from the spec: the Correction Detector (§4.2) is not implemented
under `src/` — `load_parameters` reads the deadband
`INTERACTION_VELOCITY_EPSILON` and constructs the learner, but the
`joint_torques_callback` that would use them is absent.  Per the spec, the
detector emits a `CorrectionEvent` carrying the deviation and the joint state
at detection time iff the deviation magnitude exceeds the deadband. -/
def detect_correction (eps dev st : List ℚ) : Option CorrectionEvent :=
  if (dev.zip eps).any (fun p => decide (p.2 < |p.1|)) then some ⟨dev, st⟩ else none

/-- Modelled from the spec: one detection cycle feeding the Belief Updater.
`upd` is the (external) learner update; the returned flag records whether the
updater was invoked this cycle. -/
def process_cycle (upd : List ℚ → CorrectionEvent → List ℚ)
    (eps dev st belief : List ℚ) : List ℚ × Bool :=
  match detect_correction eps dev st with
  | some e => (upd belief e, true)
  | none => (belief, false)

/-- An identity learner update, used only to instantiate theorems that hold
for every updater. -/
def updId : List ℚ → CorrectionEvent → List ℚ := fun b _ => b

/-- The key under which `load_parameters` stores goal number `n` in
`object_centers`: the string `GOAL<n> ANGLES`. -/
def goalKey (n : ℕ) : String := "GOAL" ++ toString n ++ " ANGLES"

/-- Python dict assignment `d[k] = v` on an association list: replaces the
binding of `k` if present, otherwise appends it. -/
def assocSet (oc : List (String × List ℚ)) (k : String) (v : List ℚ) :
    List (String × List ℚ) :=
  match oc with
  | [] => [(k, v)]
  | (k', v') :: rest => if k' = k then (k, v) :: rest else (k', v') :: assocSet rest k v

/-- Python dict lookup `d[k]` on an association list. -/
def assocGet (oc : List (String × List ℚ)) (k : String) : Option (List ℚ) :=
  match oc with
  | [] => none
  | (k', v) :: rest => if k' = k then some v else assocGet rest k

/-- The body of the goal loop in `load_parameters`: a 7-entry goal is padded
with three trailing constant zeros (`np.pad(goal, (0,3), mode='constant')`),
any other goal is stored unchanged. -/
def padGoal (g : List ℚ) : List ℚ :=
  if g.length = 7 then g ++ [0, 0, 0] else g

/-- The goal loop of `load_parameters`
(`for goal_num in range(len(self.goals)): object_centers[...] = ...`),
starting at goal index `i`. -/
def storeGoalsFrom (i : ℕ) (gs : List (List ℚ)) (oc : List (String × List ℚ)) :
    List (String × List ℚ) :=
  match gs with
  | [] => oc
  | g :: rest => storeGoalsFrom (i + 1) rest (assocSet oc (goalKey i) (padGoal g))

/-- The goal loop of `load_parameters` over all configured goals. -/
def storeGoals (goals : List (List ℚ)) (oc : List (String × List ℚ)) :
    List (String × List ℚ) :=
  storeGoalsFrom 0 goals oc

/-- How a run of the node ends: the operator presses ENTER (`break`), ROS is
shut down externally (the `while` guard turns false), or an uncaught
exception is raised inside the loop body. -/
inductive ExitPath where
  | operatorStop
  | rosShutdown
  | fatalError
deriving DecidableEq, Repr

/-- The externally visible actuation events of `TeleopInference.__init__`. -/
inductive NodeEvent where
  | startAdmittance
  | publishCmd
  | stopAdmittance
deriving DecidableEq, Repr

/-- The actuation-event trace of `TeleopInference.__init__`: admittance mode
is started, the loop publishes `k` velocity commands, then the run ends on
`e`.  On `operatorStop` and `rosShutdown` control reaches the
`stop_admittance_mode` call after the loop; a `fatalError` raised inside the
loop propagates out of `__init__` (there is no try/finally), so that call is
skipped. -/
def nodeRun (k : ℕ) (e : ExitPath) : List NodeEvent :=
  NodeEvent.startAdmittance ::
    (List.replicate k NodeEvent.publishCmd ++
      match e with
      | ExitPath.operatorStop => [NodeEvent.stopAdmittance]
      | ExitPath.rosShutdown => [NodeEvent.stopAdmittance]
      | ExitPath.fatalError => [])

/-! Concrete configuration values used to instantiate the theorems below. -/

/-- The 7-dof zero configuration. -/
def zeroVec7 : List ℚ := [0, 0, 0, 0, 0, 0, 0]

/-- A two-waypoint example trajectory from the origin to the all-ones
configuration. -/
def exTraj : List (ℚ × List ℚ) := [(0, zeroVec7), (1, [1, 1, 1, 1, 1, 1, 1])]

/-- An example controller configuration (unit P gain, proximity threshold
`1/10`, command bound `1`). -/
def exCtrl : PIDController :=
  { P := 1, I := 0, D := 0, epsilon := 1 / 10, max_cmd := 1, traj := exTraj,
    path_start_T := none, path_end_T := none, i_error := zeroVec7,
    last_error := zeroVec7 }

/-- `exCtrl` after its first reading at the start waypoint: the start
timestamp is set. -/
def exCtrlStarted : PIDController := { exCtrl with path_start_T := some 0 }

/-- A 7-by-1 all-zero command, as stored in `cmd` after a reading at the
reference position. -/
def exColZero : List (List ℚ) := [[0], [0], [0], [0], [0], [0], [0]]

/-- The example node state after one zero-configuration reading at time 0. -/
def exStateAfter : NodeState :=
  { curr_pos := some zeroVec7, cmd := exColZero, reached_start := true,
    reached_goal := false, ctrl := exCtrlStarted }

/-- Two example goals: a 7-dof one (to be padded) and a short one. -/
def exGoals : List (List ℚ) := [[1, 2, 3, 4, 5, 6, 7], [1, 2, 3]]

/-- An example `object_centers` configuration. -/
def exOC : List (String × List ℚ) := [("LAPTOP CENTER", [0, 0, 0])]

/-! Helper lemmas. -/

theorem abs_clampQ (m x : ℚ) (hm : 0 ≤ m) : |clampQ m x| ≤ m := by
  rw [clampQ, abs_le]
  refine ⟨le_min (by linarith) (le_max_left _ _), min_le_left _ _⟩

theorem assocGet_assocSet_self (oc : List (String × List ℚ)) (k : String)
    (v : List ℚ) : assocGet (assocSet oc k v) k = some v := by
  induction oc with
  | nil => simp [assocSet, assocGet]
  | cons p rest ih =>
      by_cases h : p.1 = k <;> simp [assocSet, assocGet, h, ih]

theorem assocGet_assocSet_ne (oc : List (String × List ℚ)) (k : String)
    (v : List ℚ) (k2 : String) (h : k2 ≠ k) :
    assocGet (assocSet oc k v) k2 = assocGet oc k2 := by
  have h2 : ¬(k = k2) := fun e => h e.symm
  induction oc with
  | nil => simp [assocSet, assocGet, h2]
  | cons p rest ih =>
      by_cases hp : p.1 = k
      · simp [assocSet, assocGet, hp, h2]
      · by_cases hp2 : p.1 = k2 <;>
          simp [assocSet, assocGet, hp, hp2, h, h2, ih]

theorem storeGoalsFrom_untouched (gs : List (List ℚ)) (i : ℕ)
    (oc : List (String × List ℚ)) (k : String)
    (h : ∀ m, i ≤ m → m < i + gs.length → k ≠ goalKey m) :
    assocGet (storeGoalsFrom i gs oc) k = assocGet oc k := by
  induction gs generalizing i oc with
  | nil => rfl
  | cons g rest ih =>
      rw [storeGoalsFrom,
        ih (i + 1) _ (fun m h1 h2 => h m (by omega) (by simp at h2 ⊢; omega))]
      exact assocGet_assocSet_ne oc (goalKey i) _ k (h i le_rfl (by simp))

theorem updateTimes_max_cmd (c : PIDController) (t : ℚ) (pos : List ℚ) :
    (updateTimes c t pos).max_cmd = c.max_cmd := by
  unfold updateTimes updateEndT updateStartT
  split <;> split <;> rfl

theorem updateTimes_start_mono (c : PIDController) (t : ℚ) (pos : List ℚ)
    (v : ℚ) (h : c.path_start_T = some v) :
    (updateTimes c t pos).path_start_T = some v := by
  unfold updateTimes updateEndT updateStartT
  split <;> split <;> simp_all

theorem updateTimes_end_mono (c : PIDController) (t : ℚ) (pos : List ℚ)
    (v : ℚ) (h : c.path_end_T = some v) :
    (updateTimes c t pos).path_end_T = some v := by
  unfold updateTimes updateEndT updateStartT
  split <;> split <;> simp_all

theorem get_command_some_shape (c : PIDController) (t : ℚ) (pos : List ℚ)
    (c' : PIDController) (cmd : List ℚ)
    (h : get_command c t pos = some (c', cmd)) :
    c'.path_start_T = (updateTimes c t pos).path_start_T ∧
    c'.path_end_T = (updateTimes c t pos).path_end_T ∧
    ∃ raw : List ℚ, cmd = raw.map (clampQ c.max_cmd) := by
  unfold get_command at h
  split at h
  · obtain ⟨h1, h2⟩ := Prod.mk.injEq .. ▸ Option.some.injEq .. ▸ h
    refine ⟨by rw [← h1], by rw [← h1], ?_⟩
    exact ⟨_, by rw [← h2, updateTimes_max_cmd]⟩
  · exact absurd h (by simp)

theorem get_command_none_of_dim (c : PIDController) (t : ℚ) (pos : List ℚ)
    (h : pos.length ≠ trajDim c.traj) : get_command c t pos = none := by
  unfold get_command
  rw [if_neg h]

theorem callback_reached_start_mono (t : ℚ) (msg : List ℚ) (s : NodeState)
    (h : s.reached_start = true) :
    (joint_angles_callback t msg s).reached_start = true := by
  unfold joint_angles_callback
  rcases hg : get_command s.ctrl t (msg.map (· * (piQ / 180))) with _ | ⟨c', cmdv⟩ <;>
    simp [hg, h]

theorem callback_reached_goal_mono (t : ℚ) (msg : List ℚ) (s : NodeState)
    (h : s.reached_goal = true) :
    (joint_angles_callback t msg s).reached_goal = true := by
  unfold joint_angles_callback
  rcases hg : get_command s.ctrl t (msg.map (· * (piQ / 180))) with _ | ⟨c', cmdv⟩ <;>
    simp [hg, h]

theorem callback_start_T_mono (t : ℚ) (msg : List ℚ) (s : NodeState) (v : ℚ)
    (h : s.ctrl.path_start_T = some v) :
    (joint_angles_callback t msg s).ctrl.path_start_T = some v := by
  unfold joint_angles_callback
  rcases hg : get_command s.ctrl t (msg.map (· * (piQ / 180))) with _ | ⟨c', cmdv⟩
  · simp [hg, h]
  · have hs := (get_command_some_shape _ _ _ _ _ hg).1
    have hm := updateTimes_start_mono s.ctrl t (msg.map (· * (piQ / 180))) v h
    simp [hg, hs, hm]

theorem callback_end_T_mono (t : ℚ) (msg : List ℚ) (s : NodeState) (v : ℚ)
    (h : s.ctrl.path_end_T = some v) :
    (joint_angles_callback t msg s).ctrl.path_end_T = some v := by
  unfold joint_angles_callback
  rcases hg : get_command s.ctrl t (msg.map (· * (piQ / 180))) with _ | ⟨c', cmdv⟩
  · simp [hg, h]
  · have hs := (get_command_some_shape _ _ _ _ _ hg).2.1
    have hm := updateTimes_end_mono s.ctrl t (msg.map (· * (piQ / 180))) v h
    simp [hg, hs, hm]

theorem detect_correction_isSome_iff (eps dev st : List ℚ) :
    (detect_correction eps dev st).isSome = true ↔ deadbandExceeded eps dev := by
  unfold detect_correction
  split
  case isTrue h =>
      simp only [Option.isSome_some, true_iff]
      rw [List.any_eq_true] at h
      obtain ⟨p, hp, hf⟩ := h
      rw [List.mem_iff_getElem] at hp
      obtain ⟨i, hi, heq⟩ := hp
      have hlen : i < min dev.length eps.length := by
        simpa [List.length_zip] using hi
      have hd : i < dev.length := lt_of_lt_of_le hlen (min_le_left _ _)
      have he : i < eps.length := lt_of_lt_of_le hlen (min_le_right _ _)
      refine ⟨i, hlen, ?_⟩
      rw [List.getD_eq_getElem _ _ he, List.getD_eq_getElem _ _ hd]
      have hz : (dev.zip eps)[i] = (dev[i], eps[i]) := List.getElem_zip
      rw [heq] at hz
      have hlt : p.2 < |p.1| := of_decide_eq_true hf
      rw [hz] at hlt
      exact hlt
  case isFalse h =>
      simp only [Option.isSome_none, Bool.false_eq_true, false_iff]
      intro ⟨i, hlen, hlt⟩
      apply h
      rw [List.any_eq_true]
      have hd : i < dev.length := lt_of_lt_of_le hlen (min_le_left _ _)
      have he : i < eps.length := lt_of_lt_of_le hlen (min_le_right _ _)
      refine ⟨(dev[i], eps[i]), ?_, ?_⟩
      · rw [List.mem_iff_getElem]
        exact ⟨i, by simpa [List.length_zip] using hlen, List.getElem_zip⟩
      · rw [List.getD_eq_getElem _ _ he, List.getD_eq_getElem _ _ hd] at hlt
        exact decide_eq_true hlt

theorem storeGoalsFrom_goal (gs : List (List ℚ)) (i n : ℕ) (hn : n < gs.length)
    (oc : List (String × List ℚ))
    (hdist : ∀ m, i ≤ m → m < i + gs.length → goalKey m = goalKey (i + n) → m = i + n) :
    assocGet (storeGoalsFrom i gs oc) (goalKey (i + n)) =
      some (padGoal (gs.get ⟨n, hn⟩)) := by
  induction gs generalizing i n oc with
  | nil => exact absurd hn (by simp)
  | cons g rest ih =>
      cases n with
      | zero =>
          rw [storeGoalsFrom,
            storeGoalsFrom_untouched rest (i + 1) _ (goalKey (i + 0)) ?hne]
          · simpa using assocGet_assocSet_self oc (goalKey i) (padGoal g)
          case hne =>
              intro m h1 h2 heq
              have := hdist m (by omega) (by simp at h2 ⊢; omega) heq.symm
              omega
      | succ n2 =>
          rw [storeGoalsFrom]
          have hkey : i + (n2 + 1) = (i + 1) + n2 := by omega
          rw [hkey]
          exact ih (i + 1) n2 (by simpa using hn) _
            (fun m h1 h2 heq => by
              have := hdist m (by omega) (by simp at h2 ⊢; omega)
                (by rw [heq, hkey])
              omega)

/-! The claims. -/

/-- Claim C1: a CorrectionEvent is emitted in a cycle iff the detected
deviation magnitude exceeds the configured deadband
(`INTERACTION_VELOCITY_EPSILON`); for a cycle whose deviation is below the
threshold nothing is classified as a correction and the Belief Updater is not
invoked (the belief is returned unchanged, for every updater `upd`). -/
theorem C1_correction_iff_deadband (upd : List ℚ → CorrectionEvent → List ℚ)
    (eps dev st belief : List ℚ) :
    ((detect_correction eps dev st).isSome = true ↔ deadbandExceeded eps dev) ∧
    (¬ deadbandExceeded eps dev →
      process_cycle upd eps dev st belief = (belief, false)) := by
  refine ⟨detect_correction_isSome_iff eps dev st, fun h => ?_⟩
  have h2 : detect_correction eps dev st = none := by
    rcases hd : detect_correction eps dev st with _ | e
    · rfl
    · exact absurd ((detect_correction_isSome_iff eps dev st).1 (by rw [hd]; rfl)) h
  unfold process_cycle
  rw [h2]

/-- Witness for C1 at a concrete sub-threshold deviation. -/
theorem C1_correction_iff_deadband_witness :
    process_cycle updId [1, 1] [0, 0] [5, 5] [1, 0] = ([1, 0], false) :=
  (C1_correction_iff_deadband updId [1, 1] [0, 0] [5, 5] [1, 0]).2 (by decide)

/-- Claim C2 (code bug): on the operator-stop and ROS-shutdown exit paths the
node's last actuation event disables admittance mode, and admittance mode is
entered before any command is published; but on the fatal-error exit path the
run ends without ever disabling admittance mode — the loop body has no
try/finally around it, so an exception skips the `stop_admittance_mode`
call. -/
theorem C2_admittance_exit_paths :
    (nodeRun 3 ExitPath.operatorStop).getLast? = some NodeEvent.stopAdmittance ∧
    (nodeRun 3 ExitPath.rosShutdown).getLast? = some NodeEvent.stopAdmittance ∧
    (nodeRun 3 ExitPath.fatalError).head? = some NodeEvent.startAdmittance ∧
    NodeEvent.stopAdmittance ∉ nodeRun 3 ExitPath.fatalError := by
  decide

/-- Claim C3: every entry of a command returned by the controller has
magnitude at most the configured `max_cmd` (clamping invariant). -/
theorem C3_command_clamped (c : PIDController) (t : ℚ) (pos : List ℚ)
    (c2 : PIDController) (cmd : List ℚ)
    (h : get_command c t pos = some (c2, cmd)) (hmax : 0 ≤ c.max_cmd)
    (i : ℕ) : |cmd.getD i 0| ≤ c.max_cmd := by
  obtain ⟨-, -, raw, hcmd⟩ := get_command_some_shape c t pos c2 cmd h
  subst hcmd
  rcases lt_or_ge i (raw.map (clampQ c.max_cmd)).length with hi | hi
  · rw [List.getD_eq_getElem _ _ hi, List.getElem_map]
    exact abs_clampQ _ _ hmax
  · rw [List.getD_eq_default _ _ hi]
    simpa using hmax

/-- Witness for C3 at a concrete controller and joint state. -/
theorem C3_command_clamped_witness : |(zeroVec7.getD 0 0)| ≤ exCtrl.max_cmd :=
  C3_command_clamped exCtrl 0 zeroVec7 exCtrlStarted zeroVec7
    (by
      norm_num [get_command, updateTimes, updateStartT, updateEndT, closeTo,
        sqDist, startWaypoint, endWaypoint, endWaypointAux, trajDim, refPos,
        refPosAux, vadd, vsub, smulV, clampQ, exCtrl, exCtrlStarted, exTraj,
        zeroVec7])
    (by norm_num [exCtrl]) 0

/-- Claim C4: a loop cycle exits iff ROS was shut down or the operator's stop
input is ready — for every node state (in particular one with
`reached_goal = true`) and whether or not a joint-state reading arrived. -/
theorem C4_loop_exit_iff (shutdown stdinReady : Bool) (msg : Option (List ℚ))
    (t : ℚ) (s : NodeState) :
    cycle shutdown stdinReady msg t s = none ↔
      (shutdown = true ∨ stdinReady = true) := by
  rcases shutdown <;> rcases stdinReady <;> simp [cycle]

/-- Claim C5: the progress flags are monotone under joint-angle callbacks, and
the controller's progress timestamps, once set, never change (so the
transition to TRACKING fires exactly once and REACHED_GOAL is terminal while
the trajectory is active). -/
theorem C5_progress_monotone (s : NodeState) (msgs : List (ℚ × List ℚ)) :
    (s.reached_start = true → (applyAll msgs s).reached_start = true) ∧
    (s.reached_goal = true → (applyAll msgs s).reached_goal = true) ∧
    (∀ v, s.ctrl.path_start_T = some v →
      (applyAll msgs s).ctrl.path_start_T = some v) ∧
    (∀ v, s.ctrl.path_end_T = some v →
      (applyAll msgs s).ctrl.path_end_T = some v) := by
  induction msgs generalizing s with
  | nil => exact ⟨id, id, fun v h => h, fun v h => h⟩
  | cons m rest ih =>
      have hstep : applyAll (m :: rest) s =
          applyAll rest (joint_angles_callback m.1 m.2 s) := rfl
      rw [hstep]
      refine ⟨?_, ?_, ?_, ?_⟩
      · intro h
        exact (ih _).1 (callback_reached_start_mono m.1 m.2 s h)
      · intro h
        exact (ih _).2.1 (callback_reached_goal_mono m.1 m.2 s h)
      · intro v h
        exact (ih _).2.2.1 v (callback_start_T_mono m.1 m.2 s v h)
      · intro v h
        exact (ih _).2.2.2 v (callback_end_T_mono m.1 m.2 s v h)

/-- Witness for C5 at a concrete state with `reached_start` already true. -/
theorem C5_progress_monotone_witness :
    (applyAll [(0, zeroVec7)] exStateAfter).reached_start = true :=
  (C5_progress_monotone exStateAfter [(0, zeroVec7)]).1 rfl

/-- Claim C6: a cycle whose reading has a dimensionality incompatible with
the active trajectory is skipped: the command buffer, progress flags and
controller are unchanged, the loop still publishes (the previous command) and
does not halt. -/
theorem C6_dimension_mismatch_skips (t : ℚ) (msg : List ℚ) (s : NodeState)
    (h : msg.length ≠ trajDim s.ctrl.traj) :
    (joint_angles_callback t msg s).cmd = s.cmd ∧
    (joint_angles_callback t msg s).reached_start = s.reached_start ∧
    (joint_angles_callback t msg s).reached_goal = s.reached_goal ∧
    (joint_angles_callback t msg s).ctrl = s.ctrl ∧
    cycle false false (some msg) t s =
      some (joint_angles_callback t msg s, publishedCmd s) := by
  have hlen : (msg.map (· * (piQ / 180))).length ≠ trajDim s.ctrl.traj := by
    simpa using h
  have hnone := get_command_none_of_dim s.ctrl t _ hlen
  have hcb : joint_angles_callback t msg s =
      { s with curr_pos := some (msg.map (· * (piQ / 180))) } := by
    unfold joint_angles_callback
    rw [hnone]
  have hpub : publishedCmd (joint_angles_callback t msg s) = publishedCmd s := by
    rw [publishedCmd, publishedCmd, hcb]
  refine ⟨by rw [hcb], by rw [hcb], by rw [hcb], by rw [hcb], ?_⟩
  simp [cycle, hpub]

/-- Witness for C6 at a 3-dof reading against the 7-dof trajectory. -/
theorem C6_dimension_mismatch_skips_witness :
    (joint_angles_callback 0 [1, 2, 3] exStateAfter).cmd = exStateAfter.cmd :=
  (C6_dimension_mismatch_skips 0 [1, 2, 3] exStateAfter (by decide)).1

/-- Claim C7: a loop cycle in which no new joint-state reading arrived leaves
the node state unchanged and publishes the same command as the previous
cycle, without terminating. -/
theorem C7_no_message_frame (t : ℚ) (s : NodeState) :
    cycle false false none t s = some (s, publishedCmd s) := rfl

/-- Claim C8: the sensed reading is converted from degrees to radians
(multiplied by `pi/180`) before being stored or used, and the published
message is `180/pi` times the command buffer (radians/s to degrees/s). -/
theorem C8_unit_conversion (t : ℚ) (msg : List ℚ) (s s2 : NodeState)
    (out : List (List ℚ))
    (h : cycle false false (some msg) t s = some (s2, out)) :
    s2.curr_pos = some (msg.map (· * (piQ / 180))) ∧
    out = smulMat (180 / piQ) s2.cmd := by
  have h2 : joint_angles_callback t msg s = s2 ∧
      publishedCmd (joint_angles_callback t msg s) = out := by
    simpa [cycle] using h
  obtain ⟨hs, hout⟩ := h2
  subst hs
  constructor
  · unfold joint_angles_callback
    rcases hg : get_command s.ctrl t (msg.map (· * (piQ / 180))) with _ | ⟨c2, cmdv⟩ <;>
      simp [hg]
  · rw [← hout]
    rfl

/-- Witness for C8 at a concrete cycle from the initial state. -/
theorem C8_unit_conversion_witness :
    exStateAfter.curr_pos = some (zeroVec7.map (· * (piQ / 180))) ∧
    exColZero = smulMat (180 / piQ) exStateAfter.cmd :=
  C8_unit_conversion 0 zeroVec7 (initState exCtrl) exStateAfter exColZero (by
    norm_num [cycle, joint_angles_callback, publishedCmd, get_command,
      updateTimes, updateStartT, updateEndT, closeTo, sqDist, startWaypoint,
      endWaypoint, endWaypointAux, trajDim, refPos, refPosAux, vadd, vsub,
      smulV, smulMat, clampQ, initState, exCtrl, exCtrlStarted, exStateAfter,
      exColZero, exTraj, zeroVec7, piQ])

/-- Claim C9: before the first sensor callback the command buffer equals
`np.eye(7)`, so a loop cycle run before the first callback publishes the
nonzero command `(180/pi) * eye(7)` rather than a zero command. -/
theorem C9_initial_command_identity (c : PIDController) (t : ℚ) :
    (initState c).cmd = eyeN 7 ∧
    cycle false false none t (initState c) =
      some (initState c, smulMat (180 / piQ) (eyeN 7)) ∧
    smulMat (180 / piQ) (eyeN 7) ≠ zeroMat 7 := by
  refine ⟨rfl, rfl, ?_⟩
  norm_num [smulMat, smulV, eyeN, zeroMat, piQ, List.range_succ,
    List.replicate_succ]

/-- Claim C10: for every configured goal `n`, `load_parameters` stores under
key `GOAL<n> ANGLES` the goal padded with three trailing zeros when it has
exactly 7 entries and the goal unchanged otherwise, and entries of
`object_centers` under other keys are unmodified. -/
theorem C10_goal_padding (goals : List (List ℚ)) (oc : List (String × List ℚ)) :
    (∀ n (hn : n < goals.length),
      (∀ m, m < goals.length → goalKey m = goalKey n → m = n) →
      assocGet (storeGoals goals oc) (goalKey n) =
        some (if (goals.get ⟨n, hn⟩).length = 7
              then goals.get ⟨n, hn⟩ ++ [0, 0, 0]
              else goals.get ⟨n, hn⟩)) ∧
    (∀ k, (∀ m, m < goals.length → k ≠ goalKey m) →
      assocGet (storeGoals goals oc) k = assocGet oc k) := by
  constructor
  · intro n hn hinj
    have h := storeGoalsFrom_goal goals 0 n hn oc (fun m h1 h2 heq => by
      have h3 : goalKey m = goalKey n := by simpa using heq
      have := hinj m (by simpa using h2) h3
      omega)
    simpa [storeGoals, padGoal] using h
  · intro k hk
    exact storeGoalsFrom_untouched goals 0 oc k
      (fun m h1 h2 => hk m (by simpa using h2))

/-- Witness for C10: the 7-entry example goal is padded to 10 entries. -/
theorem C10_goal_padding_witness :
    assocGet (storeGoals exGoals exOC) (goalKey 0) =
      some [1, 2, 3, 4, 5, 6, 7, 0, 0, 0] :=
  ((C10_goal_padding exGoals exOC).1 0 (by decide) (by decide)).trans (by decide)

end Teleop
